import Mathlib

/-!
Verification of the name-ratio tally in `scripts/ratio-for-kommunity.py`
(repository `ufukty/kommunity-genders`).

The script reads raw name lines, normalizes them (trim whitespace,
lowercase, strip characters outside a fixed Turkish-letter allow-list),
drops empty tokens, builds a `Counter`, sums the multiplicities of the
names belonging to each of three fixed label sets (`male_names`,
`female_names`, `unisex_names`), and finally computes
`total = male_count + female_count` and the two percentages, each guarded
by `if total else 0`.  The module's last expression is the plain tuple
`(male_count, female_count, excluded_count, total, male_ratio, female_ratio)`.

Strings are modelled as Lean `String`; Python's `str.lower` is modelled
character-wise (ASCII plus the six uppercase Turkish letters appearing in
the script's regular expression; the net effect on `İ`, whose Python
lowercase is `i` plus a combining dot that the character filter then
removes, is the single letter `i`).
-/

namespace KommunityGenders

/-- Character-wise model of Python `str.lower()` restricted to the
alphabet relevant to the script: ASCII `A`-`Z` plus the uppercase Turkish
letters `ĞÜŞİÖÇ` of the allow-list map to their lowercase forms; every
other character is unchanged. -/
def turkishLower (c : Char) : Char :=
  if 65 ≤ c.toNat ∧ c.toNat ≤ 90 then Char.ofNat (c.toNat + 32)
  else if c = 'Ğ' then 'ğ'
  else if c = 'Ü' then 'ü'
  else if c = 'Ş' then 'ş'
  else if c = 'İ' then 'i'
  else if c = 'Ö' then 'ö'
  else if c = 'Ç' then 'ç'
  else c

/-- The allow-list of the regular expression
`[^a-zA-ZğüşıöçĞÜŞİÖÇ]+` in the script: a character survives `re.sub`
exactly when it is an ASCII letter or one of the twelve accented Turkish
letters. -/
def allowedChar (c : Char) : Bool :=
  (97 ≤ c.toNat && c.toNat ≤ 122) || (65 ≤ c.toNat && c.toNat ≤ 90) ||
    c ∈ ['ğ', 'ü', 'ş', 'ı', 'ö', 'ç', 'Ğ', 'Ü', 'Ş', 'İ', 'Ö', 'Ç']

/-- The lowercase-only part of the allow-list: what can actually remain
after lowercasing followed by the character filter. -/
def allowedLowerChar (c : Char) : Bool :=
  (97 ≤ c.toNat && c.toNat ≤ 122) || c ∈ ['ğ', 'ü', 'ş', 'ı', 'ö', 'ç']

/-- Python `str.strip()`: remove leading and trailing whitespace. -/
def stripChars (s : List Char) : List Char :=
  ((s.dropWhile Char.isWhitespace).reverse.dropWhile Char.isWhitespace).reverse

/-- `n.strip()` on a `String`. -/
def stripStr (s : String) : String :=
  ⟨stripChars s.data⟩

/-- One raw line through
`re.sub(r"[^a-zA-ZğüşıöçĞÜŞİÖÇ]+", "", n.strip().lower())`:
trim, lowercase, keep only allow-listed characters. -/
def normalize (s : String) : String :=
  ⟨((stripChars s.data).map turkishLower).filter allowedChar⟩

/-- The two list comprehensions of the script: keep the lines whose
`strip()` is non-empty, normalize each, then drop tokens that became
empty (`names = [n for n in names if n]`). -/
def processNames (lines : List String) : List String :=
  ((lines.filter fun n => stripStr n ≠ "").map normalize).filter fun n => n ≠ ""

/-- The generator `sum(count for name, count in counts.items() if name in s)`
evaluated over an arbitrary enumeration `items` of the keys of
`counts = Counter(names)`: each listed name contributes its multiplicity
in `names` when it belongs to the label set `s`. -/
def setCountOver (s names items : List String) : Nat :=
  (items.map fun n => if n ∈ s then names.count n else 0).sum

/-- `sum(count for name, count in counts.items() if name in s)` where
`counts = Counter(names)`: the distinct names (`names.dedup` stands for
`counts.items()`) contribute their multiplicity when they belong to the
label set `s`. -/
def setCount (s : List String) (names : List String) : Nat :=
  setCountOver s names names.dedup

/-- The `male_names` set literal of the script. -/
def male_names : List String :=
  ["ahmet", "mehmet", "ali", "mustafa", "murat", "burak", "emre", "enes", "furkan", "ömer", "hasan",
   "hüseyin", "ibrahim", "yusuf", "kadir", "ramazan", "selim", "halil", "fatih", "barış", "berkay",
   "mert", "kerem", "kaan", "alper", "gökhan", "onur", "sinan", "cengiz", "batuhan", "yunus", "recep",
   "emir", "omer", "yasin", "taha", "tuncay", "samed", "samet", "ismail", "abdullah", "abdul", "adem",
   "enes", "hakan", "omer", "ugur", "ahmetcan", "mehmetali", "orhan", "ozan", "tamer", "tolga", "ozgur"]

/-- The `female_names` set literal of the script. -/
def female_names : List String :=
  ["ayşe", "fatma", "zeynep", "elif", "büşra", "merve", "melike", "ayşegül", "esra", "hilal", "sena",
   "melis", "selin", "kübra", "beyza", "meltem", "yasemin", "özge", "melike", "banu", "duygu", "gül",
   "ece", "sevda", "sümeyye", "seher", "rabia", "hümeyra", "hazal", "ayşenur", "nisa", "ayşe", "yaren",
   "gaye", "leyla", "sema", "seda", "sevil", "tuğçe", "sinem", "özlem", "ayça", "aybüke", "beyzanur"]

/-- The `unisex_names` set literal of the script. -/
def unisex_names : List String :=
  ["deniz", "derya", "doğan", "doğa", "evren", "ilhan", "olcay", "umut", "sevgi", "songül", "dilara"]

/-- The six values of the module's final expression
`male_count, female_count, excluded_count, total, male_ratio, female_ratio`. -/
structure TallyResult where
  male_count : Nat
  female_count : Nat
  excluded_count : Nat
  total : Nat
  male_ratio : ℚ
  female_ratio : ℚ
deriving DecidableEq, Repr

/-- The whole computation of the script, parameterized by the three label
sets: normalize and filter the input lines, count per label set, compute
`total = male_count + female_count` and the guarded percentages
`male_count / total * 100 if total else 0` (exact rational arithmetic in
place of Python floats). -/
def tally (maleSet femaleSet unisexSet : List String) (lines : List String) : TallyResult :=
  let names := processNames lines
  let male_count := setCount maleSet names
  let female_count := setCount femaleSet names
  let excluded_count := setCount unisexSet names
  let total := male_count + female_count
  { male_count := male_count
    female_count := female_count
    excluded_count := excluded_count
    total := total
    male_ratio := if total ≠ 0 then (male_count : ℚ) / total * 100 else 0
    female_ratio := if total ≠ 0 then (female_count : ℚ) / total * 100 else 0 }

/-- The script as run: `tally` at its fixed label-set literals. -/
def program (lines : List String) : TallyResult :=
  tally male_names female_names unisex_names lines

/-- A token belongs to exactly one of the three label sets. -/
def inExactlyOne (m f u : List String) (t : String) : Prop :=
  (t ∈ m ∧ t ∉ f ∧ t ∉ u) ∨ (t ∉ m ∧ t ∈ f ∧ t ∉ u) ∨ (t ∉ m ∧ t ∉ f ∧ t ∈ u)

instance (m f u : List String) (t : String) : Decidable (inExactlyOne m f u t) := by
  unfold inExactlyOne; infer_instance

/-! Helper lemmas -/

theorem sum_map_ite_eq_sum_filter {α : Type} (q : α → Prop) [DecidablePred q]
    (g : α → Nat) (L : List α) :
    (L.map fun x => if q x then g x else 0).sum =
      ((L.filter fun x => decide (q x)).map g).sum := by
  induction L with
  | nil => rfl
  | cons a L ih => by_cases h : q a <;> simp [List.filter_cons, h, ih]

theorem setCount_eq_countP (s names : List String) :
    setCount s names = names.countP fun n => decide (n ∈ s) := by
  rw [setCount, setCountOver, sum_map_ite_eq_sum_filter (fun n => n ∈ s)]
  exact List.sum_map_count_dedup_filter_eq_countP _ names

theorem countP_three_of_partition {α : Type} (p q r : α → Bool) (l : List α)
    (h : ∀ t ∈ l, (p t = true ∧ q t = false ∧ r t = false) ∨
      (p t = false ∧ q t = true ∧ r t = false) ∨
      (p t = false ∧ q t = false ∧ r t = true)) :
    l.countP p + l.countP q + l.countP r = l.length := by
  induction l with
  | nil => rfl
  | cons a l ih =>
    have ih' := ih fun t ht => h t (List.mem_cons_of_mem a ht)
    rcases h a (List.mem_cons_self a l) with ⟨h1, h2, h3⟩ | ⟨h1, h2, h3⟩ | ⟨h1, h2, h3⟩ <;>
      simp [List.countP_cons, h1, h2, h3] <;> omega

theorem processNames_perm {lines₁ lines₂ : List String} (h : lines₁.Perm lines₂) :
    (processNames lines₁).Perm (processNames lines₂) :=
  ((h.filter _).map normalize).filter _

theorem setCount_perm (s : List String) {names₁ names₂ : List String}
    (h : names₁.Perm names₂) : setCount s names₁ = setCount s names₂ := by
  rw [setCount_eq_countP, setCount_eq_countP]
  exact h.countP_eq _

theorem allowedLowerChar_turkishLower (c : Char)
    (h : allowedChar (turkishLower c) = true) :
    allowedLowerChar (turkishLower c) = true := by
  unfold turkishLower at h ⊢
  split_ifs at h ⊢ with h1 h2 h3 h4 h5 h6 h7
  · obtain ⟨ha, hb⟩ := h1
    clear h
    generalize hg : c.toNat = n at ha hb ⊢
    interval_cases n <;> decide
  · decide
  · decide
  · decide
  · decide
  · decide
  · decide
  · simp only [allowedChar, allowedLowerChar, Bool.or_eq_true, Bool.and_eq_true,
      decide_eq_true_eq, List.mem_cons, List.not_mem_nil, or_false] at h ⊢
    rcases h with (h | h) | h
    · exact Or.inl h
    · exact absurd h h1
    · rcases h with rfl | rfl | rfl | rfl | rfl | rfl | rfl | rfl | rfl | rfl | rfl | rfl <;>
        simp_all

/-! The claims -/

/-- C8 (confirmed): classification is deterministic.  The embedding of the
script is a pure function, so identical inputs give identical results by
reflexivity; the only run-to-run freedom in the source is the iteration
order of `counts.items()` over the `Counter` dictionary, and summing the
per-name contributions over any enumeration of the distinct names yields
the same category counts. -/
theorem classification_deterministic (s names items : List String)
    (h : items.Perm names.dedup) :
    setCountOver s names items = setCount s names :=
  (h.map _).sum_eq

theorem classification_deterministic_witness :
    (["b", "a"] : List String).Perm (["a", "b"] : List String).dedup ∧
      setCountOver ["a"] ["a", "b"] ["b", "a"] = setCount ["a"] ["a", "b"] :=
  ⟨by decide, classification_deterministic ["a"] ["a", "b"] ["b", "a"] (by decide)⟩

/-- C9 (confirmed): the percentage computation is total.  The guard
`male_count / total * 100 if total else 0` makes both ratios `0` whenever
`total = male_count + female_count` is `0`; no division by zero occurs. -/
theorem zero_total_ratios_zero (lines : List String)
    (h : (program lines).total = 0) :
    (program lines).male_ratio = 0 ∧ (program lines).female_ratio = 0 := by
  simp only [program, tally] at h ⊢
  simp [h]

theorem zero_total_ratios_zero_witness :
    (program []).total = 0 ∧
      (program []).male_ratio = 0 ∧ (program []).female_ratio = 0 :=
  ⟨rfl, zero_total_ratios_zero [] rfl⟩

/-- C10 (confirmed): the aggregation is order-independent.  Permuting the
input lines permutes the normalized token list, which leaves every
per-set count, the total and both percentages unchanged, so the whole
result tuple is identical. -/
theorem tally_perm_invariant (m f u lines₁ lines₂ : List String)
    (h : lines₁.Perm lines₂) :
    tally m f u lines₁ = tally m f u lines₂ := by
  have hp := processNames_perm h
  have hm := setCount_perm m hp
  have hf := setCount_perm f hp
  have hu := setCount_perm u hp
  simp [tally, hm, hf, hu]

theorem tally_perm_invariant_witness :
    (["Ahmet", "Ayşe"] : List String).Perm ["Ayşe", "Ahmet"] ∧
      tally male_names female_names unisex_names ["Ahmet", "Ayşe"] =
        tally male_names female_names unisex_names ["Ayşe", "Ahmet"] :=
  ⟨by decide,
    tally_perm_invariant male_names female_names unisex_names
      ["Ahmet", "Ayşe"] ["Ayşe", "Ahmet"] (by decide)⟩

/-- C2 (counterexample): with overlapping label sets the script does not
give the female set precedence; a token present in both sets is counted
in `male_count` as well, refuting "contributes nothing to male_count". -/
theorem both_sets_cex :
    ("x" ∈ (["x"] : List String)) ∧ ("x" ∈ (["x"] : List String)) ∧
      (tally ["x"] ["x"] [] ["x"]).male_count = 1 ∧
      (tally ["x"] ["x"] [] ["x"]).female_count = 1 := by
  refine ⟨by decide, by decide, ?_, ?_⟩ <;> decide

/-- C2 (amended): a token present in both label sets is counted once in
`female_count` AND once in `male_count` — the two membership tests of the
script are independent, there is no precedence rule.  (The script's own
fixed label sets happen to be disjoint, so this shows only with
overlapping sets.) -/
theorem both_sets_counted_in_both (m f ns : List String) (t : String)
    (hm : t ∈ m) (hf : t ∈ f) :
    setCount m (t :: ns) = setCount m ns + 1 ∧
      setCount f (t :: ns) = setCount f ns + 1 := by
  rw [setCount_eq_countP, setCount_eq_countP, setCount_eq_countP, setCount_eq_countP]
  constructor <;> simp [List.countP_cons, hm, hf]

theorem both_sets_counted_in_both_witness :
    setCount ["x"] ("x" :: []) = setCount ["x"] [] + 1 ∧
      setCount ["x"] ("x" :: []) = setCount ["x"] [] + 1 :=
  both_sets_counted_in_both ["x"] ["x"] [] "x" (by decide) (by decide)

/-- C3 (counterexample): on the empty input — so `accounted = 0` — the
script produces the ordinary numeric tuple `(0, 0, 0, 0, 0, 0)`; nothing
in its output reports a distinct NoAccountedNames condition. -/
theorem no_accounted_numeric_output_cex : program [] = ⟨0, 0, 0, 0, 0, 0⟩ := rfl

/-- C3 (amended): when `male_count + female_count = 0` the script does not
crash — the `if total else 0` guard makes the computation total and both
ratios `0` — but it does not report any distinct condition either: the
result is the ordinary numeric tuple with `total = 0` and zero ratios. -/
theorem no_accounted_silent_zeros (m f u lines : List String)
    (h : (tally m f u lines).total = 0) :
    tally m f u lines =
      { male_count := setCount m (processNames lines)
        female_count := setCount f (processNames lines)
        excluded_count := setCount u (processNames lines)
        total := 0
        male_ratio := 0
        female_ratio := 0 } := by
  simp only [tally] at h ⊢
  simp [h]

theorem no_accounted_silent_zeros_witness :
    (tally male_names female_names unisex_names []).total = 0 ∧
      tally male_names female_names unisex_names [] =
        { male_count := setCount male_names (processNames [])
          female_count := setCount female_names (processNames [])
          excluded_count := setCount unisex_names (processNames [])
          total := 0
          male_ratio := 0
          female_ratio := 0 } :=
  ⟨rfl, no_accounted_silent_zeros male_names female_names unisex_names [] rfl⟩

/-- C6 (confirmed): whenever `accounted = male_count + female_count` is
positive, the two computed percentages sum to exactly `100` in rational
arithmetic. -/
theorem ratios_sum_100 (m f u lines : List String)
    (h : (tally m f u lines).total ≠ 0) :
    (tally m f u lines).male_ratio + (tally m f u lines).female_ratio = 100 := by
  simp only [tally] at h ⊢
  rw [if_pos h, if_pos h]
  have hq : ((setCount m (processNames lines) + setCount f (processNames lines) : Nat) : ℚ) ≠ 0 :=
    Nat.cast_ne_zero.mpr h
  push_cast at hq ⊢
  field_simp
  ring

theorem ratios_sum_100_witness :
    (tally male_names female_names unisex_names ["ahmet", "ayşe"]).total ≠ 0 ∧
      (tally male_names female_names unisex_names ["ahmet", "ayşe"]).male_ratio +
        (tally male_names female_names unisex_names ["ahmet", "ayşe"]).female_ratio = 100 :=
  ⟨by decide,
    ratios_sum_100 male_names female_names unisex_names ["ahmet", "ayşe"] (by decide)⟩

/-- C1 (counterexample): the three categories are not exhaustive.  The
script counts as "excluded" only the names of its `unisex_names` set, so
a normalized token belonging to none of the three sets — here `"zzz"` —
is counted in no category: all three counts are `0` while one token
remains after normalization. -/
theorem counts_not_exhaustive_cex :
    ¬((program ["zzz"]).male_count + (program ["zzz"]).female_count +
        (program ["zzz"]).excluded_count = (processNames ["zzz"]).length) := by
  decide

/-- C1 (amended): `male_count + female_count + excluded_count` equals the
number of tokens remaining after normalization provided every such token
lies in exactly one of the three label sets (male, female, unisex); a
token in none of the sets is counted nowhere and a token in several is
counted several times, so the hypothesis cannot be dropped. -/
theorem counts_partition_exhaustive (m f u lines : List String)
    (h : ∀ t ∈ processNames lines, inExactlyOne m f u t) :
    (tally m f u lines).male_count + (tally m f u lines).female_count +
      (tally m f u lines).excluded_count = (processNames lines).length := by
  simp only [tally, setCount_eq_countP]
  refine countP_three_of_partition _ _ _ _ fun t ht => ?_
  rcases h t ht with ⟨h1, h2, h3⟩ | ⟨h1, h2, h3⟩ | ⟨h1, h2, h3⟩
  · exact Or.inl ⟨by simp [h1], by simp [h2], by simp [h3]⟩
  · exact Or.inr (Or.inl ⟨by simp [h1], by simp [h2], by simp [h3]⟩)
  · exact Or.inr (Or.inr ⟨by simp [h1], by simp [h2], by simp [h3]⟩)

theorem counts_partition_exhaustive_witness :
    (∀ t ∈ processNames ["Ahmet", "Ayşe", "Deniz"],
        inExactlyOne male_names female_names unisex_names t) ∧
      (tally male_names female_names unisex_names ["Ahmet", "Ayşe", "Deniz"]).male_count +
          (tally male_names female_names unisex_names ["Ahmet", "Ayşe", "Deniz"]).female_count +
          (tally male_names female_names unisex_names ["Ahmet", "Ayşe", "Deniz"]).excluded_count =
        (processNames ["Ahmet", "Ayşe", "Deniz"]).length :=
  ⟨by decide,
    counts_partition_exhaustive male_names female_names unisex_names
      ["Ahmet", "Ayşe", "Deniz"] (by decide)⟩

/-- C4 (counterexample): in the spec's scenario the token `unknownname`
matches neither given label set, but the script counts as "excluded" only
members of its `unisex_names` set, so `excluded_count` is `0`, not `1`. -/
theorem scenario_excluded_cex :
    (tally ["ahmet"] ["ayşe"] unisex_names
        ["Ahmet", "ayşe ", "UNKNOWNNAME", "Ayşe"]).excluded_count ≠ 1 := by
  decide

/-- C4 (amended): for the scenario input with male set `{ahmet}` and
female set `{ayşe}` the script yields `male_count = 1`, `female_count = 2`,
`excluded_count = 0` (the unmatched token `unknownname` is not in the
script's unisex set, the only source of exclusions), `accounted = 3` and
the exact percentages `100/3` and `200/3`; no simplified ratio string is
produced — the module's result is only this numeric tuple. -/
theorem scenario_actual :
    tally ["ahmet"] ["ayşe"] unisex_names ["Ahmet", "ayşe ", "UNKNOWNNAME", "Ayşe"] =
      ⟨1, 2, 0, 3, 100 / 3, 200 / 3⟩ := by
  have hm : setCount ["ahmet"] (processNames ["Ahmet", "ayşe ", "UNKNOWNNAME", "Ayşe"]) = 1 := by
    decide
  have hf : setCount ["ayşe"] (processNames ["Ahmet", "ayşe ", "UNKNOWNNAME", "Ayşe"]) = 2 := by
    decide
  have he : setCount unisex_names (processNames ["Ahmet", "ayşe ", "UNKNOWNNAME", "Ayşe"]) = 0 := by
    decide
  simp [tally, hm, hf, he]
  norm_num

/-- C7 (counterexample): a run with positive accounted count whose entire
output is the numeric tuple `(1, 2, 0, 3, 100/3, 200/3)`; the module's
final expression contains no simplified ratio string (nor any string). -/
theorem output_numeric_only_cex :
    program ["Mehmet", "Zeynep", "Zeynep"] = ⟨1, 2, 0, 3, 100 / 3, 200 / 3⟩ := by
  have hm : setCount male_names (processNames ["Mehmet", "Zeynep", "Zeynep"]) = 1 := by decide
  have hf : setCount female_names (processNames ["Mehmet", "Zeynep", "Zeynep"]) = 2 := by decide
  have he : setCount unisex_names (processNames ["Mehmet", "Zeynep", "Zeynep"]) = 0 := by decide
  simp [program, tally, hm, hf, he]
  norm_num

/-- C7 (amended): for every run with positive accounted count the output
consists of the three counts, the total and the two percentages derived
from the counts — six numeric values and nothing more; the script never
builds a "1 : x" / "x : 1" ratio string. -/
theorem output_counts_and_percentages (lines : List String)
    (h : (program lines).total ≠ 0) :
    ∃ mc fc ec : Nat, program lines =
      ⟨mc, fc, ec, mc + fc, (mc : ℚ) / ((mc : ℚ) + fc) * 100,
        (fc : ℚ) / ((mc : ℚ) + fc) * 100⟩ := by
  refine ⟨setCount male_names (processNames lines),
    setCount female_names (processNames lines),
    setCount unisex_names (processNames lines), ?_⟩
  simp only [program, tally] at h ⊢
  rw [if_pos h, if_pos h]
  push_cast
  rfl

theorem output_counts_and_percentages_witness :
    (program ["ahmet", "ayşe"]).total ≠ 0 ∧
      ∃ mc fc ec : Nat, program ["ahmet", "ayşe"] =
        ⟨mc, fc, ec, mc + fc, (mc : ℚ) / ((mc : ℚ) + fc) * 100,
          (fc : ℚ) / ((mc : ℚ) + fc) * 100⟩ :=
  ⟨by decide, output_counts_and_percentages ["ahmet", "ayşe"] (by decide)⟩

/-- C5 (confirmed): normalization trims surrounding whitespace,
lowercases and keeps only allow-listed letters, and a line that is empty
after normalization is dropped and contributes to no count: appending
such a line leaves the processed token list — hence every count —
unchanged, and every surviving token is non-empty, is the normalization
of some input line, and consists only of allow-listed lowercase letters. -/
theorem normalization_sound (lines : List String) (junk : String)
    (hjunk : normalize junk = "") :
    processNames (lines ++ [junk]) = processNames lines ∧
      ∀ t ∈ processNames lines, t ≠ "" ∧
        (∃ raw, raw ∈ lines ∧ t = normalize raw) ∧
        ∀ c ∈ t.data, allowedLowerChar c = true := by
  constructor
  · by_cases hs : stripStr junk = ""
    · simp [processNames, List.filter_append, hs]
    · simp [processNames, List.filter_append, hs, hjunk]
  · intro t ht
    simp only [processNames, List.mem_filter, List.mem_map, decide_eq_true_eq] at ht
    obtain ⟨⟨raw, hraw, rfl⟩, hne⟩ := ht
    have hraw' : raw ∈ lines := hraw.1
    refine ⟨hne, ⟨raw, hraw', rfl⟩, fun c hc => ?_⟩
    have hc' : c ∈ ((stripChars raw.data).map turkishLower).filter allowedChar := hc
    have h1 : allowedChar c = true := List.of_mem_filter hc'
    have h2 : c ∈ (stripChars raw.data).map turkishLower := List.mem_of_mem_filter hc'
    obtain ⟨c₀, _, rfl⟩ := List.mem_map.1 h2
    exact allowedLowerChar_turkishLower c₀ h1

theorem normalization_sound_witness :
    normalize " 123 " = "" ∧
      (processNames (["Ahmet"] ++ [" 123 "]) = processNames ["Ahmet"] ∧
        ∀ t ∈ processNames ["Ahmet"], t ≠ "" ∧
          (∃ raw, raw ∈ ["Ahmet"] ∧ t = normalize raw) ∧
          ∀ c ∈ t.data, allowedLowerChar c = true) :=
  ⟨by decide, normalization_sound ["Ahmet"] " 123 " (by decide)⟩

end KommunityGenders
